import Mathlib

/-!
Verification development for the time-series ingestion and storage subsystem
of the Trading-Repo repository.

The definitions below are a shallow embedding of the Python source:

* `TimescaleHandler.insert_ohlc_data` embeds
  `data-management/storage/timescale_handler.py` (`insert_ohlc_data`):
  the persisted table `ohlc_data` is modelled as a list of rows with unique
  key `(time, symbol, timeframe)`; the psycopg2 connection/transaction is
  modelled by explicit state passing (the committed store goes in, and either
  the new committed store or the unchanged store plus an error comes out).
  A write failure raised by the database mid-call is modelled by the
  `failAt` parameter naming the batch index at which `execute_values` raises.
* `TimescaleHandler.detect_gaps` and `TimescaleHandler.get_data_quality_score`
  embed the corresponding methods of the same file.
* `BaseDataProvider.*` and `YFinanceProvider.*` embed
  `data-management/ingestion/providers/base_provider.py` and
  `yfinance_provider.py`; pandas DataFrames are modelled by an explicit
  `DataFrame` structure (column names, row-major cells, index), datetimes
  and prices by exact rationals, and NaN/NaT by an explicit `missing` cell.

Machine floating point is idealised by `ℚ`: none of the verified claims
depends on rounding of binary floats.
-/

namespace TimescaleHandler

/-- Bar models one row of the `data` frame passed to `insert_ohlc_data`,
restricted to the required columns `[time, open, high, low, close, volume]`
(the optional `trades` / `vwap` columns are omitted: no claim concerns them). -/
structure Bar where
  time : Int
  open_ : ℚ
  high : ℚ
  low : ℚ
  close : ℚ
  volume : ℚ
deriving DecidableEq

/-- OhlcEntry models one stored row of the `ohlc_data` table, i.e. the column
list `time, symbol, timeframe, open, high, low, close, volume` plus the
optional `data_source` column. -/
structure OhlcEntry where
  time : Int
  symbol : String
  timeframe : String
  open_ : ℚ
  high : ℚ
  low : ℚ
  close : ℚ
  volume : ℚ
  dataSource : Option String
deriving DecidableEq

/-- entryKey is the unique key `(time, symbol, timeframe)` of `ohlc_data`. -/
def entryKey (e : OhlcEntry) : Int × String × String :=
  (e.time, e.symbol, e.timeframe)

/-- barKey is the key an input row obtains once `symbol` and `timeframe`
are attached by `insert_ohlc_data`. -/
def barKey (symbol timeframe : String) (b : Bar) : Int × String × String :=
  (b.time, symbol, timeframe)

/-- toEntry models building the VALUES tuple for one row: the call's
`symbol`, `timeframe` and (optional) `data_source` are attached to the bar. -/
def toEntry (symbol timeframe : String) (src : Option String) (b : Bar) : OhlcEntry :=
  ⟨b.time, symbol, timeframe, b.open_, b.high, b.low, b.close, b.volume, src⟩

/-- updateEntry models `ON CONFLICT (time, symbol, timeframe) DO UPDATE SET`:
every non-key column in the insert's column list is overwritten with the
EXCLUDED (new) value.  `data_source` is part of the column list only when the
call passed one, so it is overwritten only in that case. -/
def updateEntry (old : OhlcEntry) (b : Bar) (src : Option String) : OhlcEntry :=
  { old with
    open_ := b.open_, high := b.high, low := b.low, close := b.close,
    volume := b.volume,
    dataSource := match src with | some s => some s | none => old.dataSource }

/-- upsertRow models the effect of inserting one VALUES row under the
`ON CONFLICT DO UPDATE` clause: the (unique) stored row with the same key is
overwritten in place, otherwise the new row is appended.  List position
models physical insertion order only; the table's contents are keyed. -/
def upsertRow (symbol timeframe : String) (src : Option String) :
    List OhlcEntry → Bar → List OhlcEntry
  | [], b => [toEntry symbol timeframe src b]
  | e :: es, b =>
    if entryKey e = barKey symbol timeframe b then
      updateEntry e b src :: es
    else
      e :: upsertRow symbol timeframe src es b

/-- applyRows folds a whole sequence of VALUES rows through `upsertRow`. -/
def applyRows (symbol timeframe : String) (src : Option String)
    (store : List OhlcEntry) (rows : List Bar) : List OhlcEntry :=
  rows.foldl (upsertRow symbol timeframe src) store

/-- chunksOfFuel is a fuel-driven slicer; the fuel only forces structural
termination and is irrelevant once it dominates the list length. -/
def chunksOfFuel (n : Nat) : Nat → List Bar → List (List Bar)
  | _, [] => []
  | 0, _ :: _ => []
  | fuel + 1, x :: xs =>
    (x :: xs).take n :: chunksOfFuel n fuel ((x :: xs).drop n)

/-- chunksOf models `values[i:i + batch_size]` for `i in range(0, len(values),
batch_size)`; for `batch_size = 0` Python's `range` would raise, the model
returns no chunks (the theorems assume `0 < batch_size`). -/
def chunksOf (n : Nat) (l : List Bar) : List (List Bar) :=
  chunksOfFuel n l.length l

def duplicateKeyMessage : String :=
  "ON CONFLICT DO UPDATE command cannot affect row a second time"

def injectedFailureMessage : String :=
  "database error"

/-- executeValuesUpsert models one `execute_values(cur, query, batch)` call:
PostgreSQL rejects a single INSERT whose rows conflict with each other
(duplicate key inside one statement), otherwise every row is upserted. -/
def executeValuesUpsert (symbol timeframe : String) (src : Option String)
    (store : List OhlcEntry) (c : List Bar) : Except String (List OhlcEntry) :=
  if (c.map (barKey symbol timeframe)).Nodup then
    .ok (applyRows symbol timeframe src store c)
  else
    .error duplicateKeyMessage

/-- processChunks models the `for i in range(0, len(values), batch_size)` loop
over the uncommitted connection state; `failAt = some k` injects a database
failure at the k-th `execute_values` call.  On success it returns the final
uncommitted state together with `total_inserted`. -/
def processChunks (symbol timeframe : String) (src : Option String)
    (working : List OhlcEntry) (cs : List (List Bar)) (idx : Nat)
    (failAt : Option Nat) : Except String (List OhlcEntry × Nat) :=
  match cs with
  | [] => .ok (working, 0)
  | c :: rest =>
    if failAt = some idx then .error injectedFailureMessage
    else
      match executeValuesUpsert symbol timeframe src working c with
      | .error e => .error e
      | .ok w =>
        match processChunks symbol timeframe src w rest (idx + 1) failAt with
        | .ok (w2, n) => .ok (w2, c.length + n)
        | .error e => .error e

/-- InsertResult is the observable outcome of one `insert_ohlc_data` call:
the committed store afterwards, the returned count or raised exception, and
whether a pooled connection was acquired at all. -/
structure InsertResult where
  store : List OhlcEntry
  result : Except String Nat
  acquiredConnection : Bool

/-- insert_ohlc_data embeds `TimescaleHandler.insert_ohlc_data`
(timescale_handler.py lines 61-147): empty input returns 0 before any
connection is taken from the pool; otherwise all batches are executed on one
connection and committed by the single `conn.commit()` after the loop; any
exception triggers `conn.rollback()` (discarding every batch of this call)
and is re-raised. -/
def insert_ohlc_data (store : List OhlcEntry) (data : List Bar)
    (symbol timeframe : String) (data_source : Option String)
    (batch_size : Nat) (failAt : Option Nat) : InsertResult :=
  if data = [] then ⟨store, .ok 0, false⟩
  else
    match processChunks symbol timeframe data_source store
        (chunksOf batch_size data) 0 failAt with
    | .ok (w, n) => ⟨w, .ok n, true⟩
    | .error e => ⟨store, .error e, true⟩

/-- lookupKey is the observation of the stored table: the (first, and under
`NodupKeys` the only) row carrying a given key. -/
def lookupKey : List OhlcEntry → Int × String × String → Option OhlcEntry
  | [], _ => none
  | e :: es, k => if entryKey e = k then some e else lookupKey es k

/-- keys lists the stored keys in physical order. -/
def keys (store : List OhlcEntry) : List (Int × String × String) :=
  store.map entryKey

/-- NodupKeys is the uniqueness invariant enforced by the table's primary
key `(time, symbol, timeframe)`. -/
def NodupKeys (store : List OhlcEntry) : Prop :=
  (keys store).Nodup

/-- applyConflict describes the row stored for a key after one upsert of `b`,
as a function of the previously stored row for that key. -/
def applyConflict (old : Option OhlcEntry) (symbol timeframe : String)
    (src : Option String) (b : Bar) : OhlcEntry :=
  match old with
  | some e => updateEntry e b src
  | none => toEntry symbol timeframe src b

/-- lastWithKey finds the last bar of the batch carrying a given key. -/
def lastWithKey (symbol timeframe : String) (k : Int × String × String) :
    List Bar → Option Bar
  | [] => none
  | b :: bs =>
    match lastWithKey symbol timeframe k bs with
    | some r => some r
    | none => if barKey symbol timeframe b = k then some b else none

/-- insertIntSorted inserts a time into an ascending list. -/
def insertIntSorted (x : Int) : List Int → List Int
  | [] => [x]
  | y :: ys => if x ≤ y then x :: y :: ys else y :: insertIntSorted x ys

/-- sortInt sorts bar times ascending (models the ordering the SQL side sees). -/
def sortInt : List Int → List Int
  | [] => []
  | x :: xs => insertIntSorted x (sortInt xs)

/-- interval_map embeds the `interval_map` dictionary of `detect_gaps`
(timescale_handler.py lines 275-282), with intervals in minutes. -/
def interval_map (timeframe : String) : Option Int :=
  match timeframe with
  | "1min" => some 1
  | "5min" => some 5
  | "15min" => some 15
  | "1h" => some 60
  | "4h" => some 240
  | "1d" => some 1440
  | _ => none

/-- defaultIntervalMinutes embeds `interval_map.get(timeframe, timedelta(days=1))`. -/
def defaultIntervalMinutes (timeframe : String) : Int :=
  (interval_map timeframe).getD 1440

/-- gapsBetween reports every consecutive pair of boundary instants further
apart than the expected interval. -/
def gapsBetween (interval : Int) : List Int → List (Int × Int)
  | a :: b :: rest =>
    (if interval < b - a then [(a, b)] else []) ++ gapsBetween interval (b :: rest)
  | _ => []

/-- Modelled from the spec: `check_data_gaps` is a database-side SQL function
whose definition is not part of src/ (timescale_handler.py line 287 only calls
it with the four arguments `(symbol, timeframe, start_time, end_time)` — it
receives no interval argument).  Per spec §4.3, a gap is a maximal sub-interval
of `[start, end]` strictly longer than the timeframe-derived expected interval
containing no stored bar, reported chronologically; the half-open boundary
convention of §9 is adopted.  Times are minutes. -/
def check_data_gaps (store : List OhlcEntry) (symbol timeframe : String)
    (startT endT : Int) : List (Int × Int) :=
  let times := sortInt ((store.filter (fun e =>
    decide (e.symbol = symbol ∧ e.timeframe = timeframe ∧
      startT ≤ e.time ∧ e.time ≤ endT))).map OhlcEntry.time)
  gapsBetween (defaultIntervalMinutes timeframe) (startT :: times ++ [endT])

/-- detect_gaps embeds `TimescaleHandler.detect_gaps` (timescale_handler.py
lines 260-295): the method computes `expected_interval` (defaulting it from
`interval_map`) but then queries `check_data_gaps(symbol, timeframe,
start_time, end_time)` without ever passing the interval on. -/
def detect_gaps (store : List OhlcEntry) (symbol timeframe : String)
    (startT endT : Int) (expected_interval : Option Int) : List (Int × Int) :=
  let _interval : Int := expected_interval.getD (defaultIntervalMinutes timeframe)
  check_data_gaps store symbol timeframe startT endT

/-- QRow models one row of the frame returned by `query_ohlc_data` inside
`get_data_quality_score`: the seven value columns `open, high, low, close,
volume, trades, vwap` (`time` is the index), `none` modelling a NULL/NaN cell. -/
structure QRow where
  open_ : Option ℚ
  high : Option ℚ
  low : Option ℚ
  close : Option ℚ
  volume : Option ℚ
  trades : Option ℚ
  vwap : Option ℚ
deriving DecidableEq

/-- qrowCells lists the seven cells of a row, in column order. -/
def qrowCells (r : QRow) : List (Option ℚ) :=
  [r.open_, r.high, r.low, r.close, r.volume, r.trades, r.vwap]

/-- missingCount embeds `df.isnull().sum().sum()`. -/
def missingCount (df : List QRow) : Nat :=
  (df.map (fun r => (qrowCells r).countP (fun c => c.isNone))).sum

/-- zeroVolumeCount embeds `(df['volume'] == 0).sum()` (a NaN volume compares
unequal to 0 in pandas). -/
def zeroVolumeCount (df : List QRow) : Nat :=
  df.countP (fun r => decide (r.volume = some 0))

/-- outlierPair embeds one cell of `df['close'].pct_change().abs() > 0.5`:
defined for two consecutive closes; a NaN close yields a NaN change (counted
false), a zero previous close yields an infinite change (counted true unless
the new close is also 0, which gives NaN). -/
def outlierPair (p c : Option ℚ) : Bool :=
  match p, c with
  | some p, some c => if p = 0 then decide (c ≠ 0) else decide (1 / 2 < |(c - p) / p|)
  | _, _ => false

/-- outlierCount embeds `(df['close'].pct_change().abs() > 0.5).sum()`. -/
def outlierCount : List QRow → Nat
  | r1 :: r2 :: rest =>
    (if outlierPair r1.close r2.close then 1 else 0) + outlierCount (r2 :: rest)
  | _ => 0

def noDataMessage : String := "No data available"

def missingValuesMessage (n : Nat) : String := toString n ++ " missing values"

def zeroVolumeMessage (n : Nat) : String := toString n ++ " bars with zero volume"

def outliersMessage (n : Nat) : String :=
  toString n ++ " potential outliers (>50% price change)"

/-- QualityResult gathers the claim-relevant fields of the returned dict. -/
structure QualityResult where
  quality_score : ℚ
  total_records : Nat
  issues : List String
deriving DecidableEq

/-- get_data_quality_score embeds `TimescaleHandler.get_data_quality_score`
(timescale_handler.py lines 297-352) applied to the frame the range query
returned; the frame has 7 columns.  The Python rounds the score to two
decimals for presentation only (`round(quality_score, 2)`), which is elided
here: it cannot move a clamped score outside `[0, 100]`. -/
def get_data_quality_score (df : List QRow) : QualityResult :=
  if df = [] then ⟨0, 0, [noDataMessage]⟩
  else
    let total_records := df.length
    let missing := missingCount df
    let zero_volume := zeroVolumeCount df
    let outliers := outlierCount df
    let issues : List String :=
      (if 0 < missing then [missingValuesMessage missing] else []) ++
      (if 0 < zero_volume then [zeroVolumeMessage zero_volume] else []) ++
      (if 0 < outliers then [outliersMessage outliers] else [])
    let completeness : ℚ := 1 - (missing : ℚ) / ((total_records : ℚ) * 7)
    let score : ℚ := max 0 (min 100 (completeness * 100 - (issues.length : ℚ) * 5))
    ⟨score, total_records, issues⟩

/-- issueCategoryCount counts, per the spec's wording, how many of the three
itemized issue categories (missing values, zero-volume bars, >50% close
moves) are present. -/
def issueCategoryCount (df : List QRow) : Nat :=
  (if 0 < missingCount df then 1 else 0) +
  (if 0 < zeroVolumeCount df then 1 else 0) +
  (if 0 < outlierCount df then 1 else 0)

/-- quality_score_spec restates the spec's formula `clamp(0, 100,
completeness×100 − 5×issueCount)` with `completeness = 1 −
missingCells/(totalRows×totalColumns)` verbatim, to be compared against the
source-derived definition. -/
def quality_score_spec (df : List QRow) : ℚ :=
  if df = [] then 0
  else
    max 0 (min 100
      ((1 - (missingCount df : ℚ) / (7 * (df.length : ℚ))) * 100 -
        5 * (issueCategoryCount df : ℚ)))

def exSymbol : String := "AAPL"

def exTimeframe : String := "1d"

def exBar1 : Bar := ⟨0, 1, 1, 1, 1, 100⟩

def exBar2 : Bar := ⟨1440, 2, 2, 2, 2, 200⟩

/-- mkGapEntry builds a daily stored bar at minute `t` for the example store. -/
def mkGapEntry (t : Int) : OhlcEntry :=
  ⟨t, exSymbol, exTimeframe, 1, 1, 1, 1, 100, none⟩

/-- gapStore holds eleven daily bars over minutes 0..14400 with day 5
(minute 7200) missing: a genuine one-day gap between 5760 and 8640. -/
def gapStore : List OhlcEntry :=
  [0, 1440, 2880, 4320, 5760, 8640, 10080, 11520, 12960, 14400].map mkGapEntry

end TimescaleHandler

/-- Value models one pandas cell: a finite numeric (datetimes included, as
minutes), a raw string, or a missing value (NaN/NaT/None). -/
inductive Value where
  | num (q : ℚ)
  | str (s : String)
  | missing
deriving DecidableEq

/-- DataFrame models a pandas DataFrame: ordered column labels, row-major
cells, plus its index (name, whether it is a DatetimeIndex, and its values). -/
structure DataFrame where
  columns : List String
  rows : List (List Value)
  indexName : Option String
  indexIsDatetime : Bool
  indexVals : List Value
deriving DecidableEq

/-- DataFrame.emptyB embeds pandas `df.empty`: true iff any axis has
length 0. -/
def DataFrame.emptyB (df : DataFrame) : Bool :=
  df.rows.isEmpty || df.columns.isEmpty

/-- emptyDataFrame embeds `pd.DataFrame()`. -/
def emptyDataFrame : DataFrame := ⟨[], [], none, false, []⟩

/-- findIdx locates a column label (first occurrence). -/
def findIdx (name : String) : List String → Option Nat
  | [] => none
  | c :: cs => if c = name then some 0 else (findIdx name cs).map (· + 1)

/-- getCell reads position `i` of a row (missing when out of range). -/
def getCell (row : List Value) (i : Nat) : Value :=
  row.getD i Value.missing

/-- setCellAt writes position `i` of a row. -/
def setCellAt (v : Value) : Nat → List Value → List Value
  | _, [] => []
  | 0, _ :: vs => v :: vs
  | n + 1, w :: vs => w :: setCellAt v n vs

/-- mapCellAt rewrites position `i` of a row. -/
def mapCellAt (f : Value → Value) : Nat → List Value → List Value
  | _, [] => []
  | 0, w :: vs => f w :: vs
  | n + 1, w :: vs => w :: mapCellAt f n vs

/-- renameWith embeds `df.rename(columns=...)` / column-label rewriting. -/
def renameWith (m : String → String) (df : DataFrame) : DataFrame :=
  { df with columns := df.columns.map m }

/-- mapColumn rewrites one column's cells when the column exists (pandas
`df[col] = f(df[col])` guarded by `if col in df.columns`). -/
def mapColumn (df : DataFrame) (name : String) (f : Value → Value) : DataFrame :=
  match findIdx name df.columns with
  | none => df
  | some i => { df with rows := df.rows.map (mapCellAt f i) }

/-- mapColumnE rewrites one column's cells with a fallible transform. -/
def mapColumnE (df : DataFrame) (name : String) (f : Value → Except String Value) :
    Except String DataFrame :=
  match findIdx name df.columns with
  | none => .ok df
  | some i =>
    match df.rows.mapM (fun r => (f (getCell r i)).map (fun v => setCellAt v i r)) with
    | .error e => .error e
    | .ok rs => .ok { df with rows := rs }

def timestampParseMessage : String := "could not convert value to datetime"

/-- toDatetimeValue embeds `pd.to_datetime` on one cell: numeric datetimes
pass through, NaN becomes NaT, and raw strings are modelled as unparseable
(raising, as pandas does on garbage input). -/
def toDatetimeValue : Value → Except String Value
  | .num q => .ok (.num q)
  | .missing => .ok .missing
  | .str _ => .error timestampParseMessage

/-- coerceNumericValue embeds `pd.to_numeric(..., errors='coerce')` on one
cell: numerics pass through, everything else (strings are modelled as
non-numeric) coerces to NaN. -/
def coerceNumericValue : Value → Value
  | .num q => .num q
  | _ => .missing

/-- tsLe is the sort order pandas uses on a (to_datetime-coerced) timestamp
column: numeric order with NaT placed last (`na_position='last'`); raw
strings, which cannot survive coercion, are ordered lexicographically between
numerics and NaT so that the order is total. -/
def tsLe : Value → Value → Bool
  | .num a, .num b => decide (a ≤ b)
  | .num _, _ => true
  | .str _, .num _ => false
  | .str a, .str b => decide (a ≤ b)
  | .str _, .missing => true
  | .missing, .missing => true
  | .missing, _ => false

/-- insertRowByTs inserts a row into rows already ordered by the timestamp
column `i`.  Note the modelling boundary: the source's
`df.sort_values('timestamp')` uses the default `kind='quicksort'`, which
pandas does not document as stable, so the relative order this insertion
produces among rows with EQUAL timestamps is a choice of the model; no
theorem in this file depends on that relative order. -/
def insertRowByTs (i : Nat) (x : List Value) : List (List Value) → List (List Value)
  | [] => [x]
  | y :: ys =>
    if tsLe (getCell x i) (getCell y i) then x :: y :: ys
    else y :: insertRowByTs i x ys

/-- sortRowsByTs embeds `df.sort_values('timestamp')`: an ascending
reordering by the timestamp column `i` (see the caveat on `insertRowByTs`
about the undocumented tie order of the source's default quicksort). -/
def sortRowsByTs (i : Nat) : List (List Value) → List (List Value)
  | [] => []
  | x :: xs => insertRowByTs i x (sortRowsByTs i xs)

/-- dedupKeepLast embeds `df.drop_duplicates(subset=['timestamp'],
keep='last')`: a row survives iff no later row carries the same timestamp
(pandas treats NaN keys as equal duplicates). -/
def dedupKeepLast (i : Nat) : List (List Value) → List (List Value)
  | [] => []
  | x :: xs =>
    if xs.any (fun y => decide (getCell x i = getCell y i)) then dedupKeepLast i xs
    else x :: dedupKeepLast i xs

/-- TimeFrame embeds the `TimeFrame` enum of base_provider.py. -/
inductive TimeFrame where
  | TICK
  | MIN_1
  | MIN_5
  | MIN_15
  | MIN_30
  | HOUR_1
  | HOUR_4
  | DAY_1
  | WEEK_1
  | MONTH_1
deriving DecidableEq

namespace BaseDataProvider

def tsName : String := "timestamp"

/-- column_mapping embeds the alias dictionary of `standardize_dataframe`
(base_provider.py lines 223-233). -/
def column_mapping (c : String) : String :=
  match c with
  | "datetime" => "timestamp"
  | "date" => "timestamp"
  | "time" => "timestamp"
  | "o" => "open"
  | "h" => "high"
  | "l" => "low"
  | "c" => "close"
  | "v" => "volume"
  | "vol" => "volume"
  | _ => c

/-- lowerString embeds `str.lower()` character-wise (structurally, unlike
core `String.toLower`, so that concrete frames evaluate). -/
def lowerString (s : String) : String :=
  ⟨s.data.map Char.toLower⟩

/-- lowerColumns embeds `df.columns = df.columns.str.lower()`. -/
def lowerColumns (df : DataFrame) : DataFrame :=
  { df with columns := df.columns.map lowerString }

/-- ensureTimestamp embeds base_provider.py lines 237-242: coerce an existing
`timestamp` column with `pd.to_datetime`, else promote a date-like index to a
new `timestamp` column and drop the index. -/
def ensureTimestamp (df : DataFrame) : Except String DataFrame :=
  if (findIdx tsName df.columns).isSome then
    mapColumnE df tsName toDatetimeValue
  else if (df.indexName = some ("datetime") ∨ df.indexName = some ("date") ∨
      df.indexName = some ("time")) ∨ df.indexIsDatetime then
    match df.indexVals.mapM toDatetimeValue with
    | .error e => .error e
    | .ok ts =>
      .ok { columns := df.columns ++ [tsName],
            rows := df.rows.zipWith (fun r v => r ++ [v]) ts,
            indexName := none, indexIsDatetime := false, indexVals := [] }
  else .ok df

def numeric_cols : List String := ["open", "high", "low", "close", "volume"]

/-- coerceColumns embeds base_provider.py lines 245-248: numeric coercion of
each OHLCV column that is present. -/
def coerceColumns (df : DataFrame) : DataFrame :=
  numeric_cols.foldl (fun d c => mapColumn d c coerceNumericValue) df

def default_required : List String :=
  ["timestamp", "open", "high", "low", "close", "volume"]

def schemaErrorMessage (missing : List String) : String :=
  "Missing required columns: " ++ String.intercalate ", " missing

def sortKeyErrorMessage : String := "KeyError: timestamp"

/-- prepared is the pipeline of `standardize_dataframe` up to (and excluding)
the required-columns check: lower-case labels, alias mapping, timestamp
coercion / index promotion, numeric coercion. -/
def prepared (df : DataFrame) : Except String DataFrame :=
  match ensureTimestamp (renameWith column_mapping (lowerColumns df)) with
  | .error e => .error e
  | .ok df2 => .ok (coerceColumns df2)

/-- standardize_dataframe embeds `BaseDataProvider.standardize_dataframe`
(base_provider.py lines 209-265).  Note the guard at line 216: an empty frame
(no rows, or no columns) is returned unchanged before any processing. -/
def standardize_dataframe (df : DataFrame) (required_cols : Option (List String)) :
    Except String DataFrame :=
  if df.emptyB then .ok df
  else
    match prepared df with
    | .error e => .error e
    | .ok df3 =>
      let required := required_cols.getD default_required
      let missing := required.filter (fun c => (findIdx c df3.columns).isNone)
      if missing.isEmpty then
        match findIdx tsName df3.columns with
        | none => .error sortKeyErrorMessage
        | some i =>
          .ok { df3 with
                rows := dedupKeepLast i (sortRowsByTs i df3.rows),
                indexName := none, indexIsDatetime := false, indexVals := [] }
      else .error (schemaErrorMessage missing)

/-- Provider models one concrete `BaseDataProvider` subclass through its one
mandatory override: the environment's response to a `fetch_historical` call
(`.error` models a raised exception). -/
structure Provider where
  fetchHistoricalImpl : String → ℚ → ℚ → TimeFrame → Except String DataFrame

/-- timeframe_deltas embeds the `timeframe_deltas` dictionary of
`_calculate_start_date` (base_provider.py lines 190-200), in minutes. -/
def timeframe_deltas : TimeFrame → Option ℚ
  | .MIN_1 => some 1
  | .MIN_5 => some 5
  | .MIN_15 => some 15
  | .MIN_30 => some 30
  | .HOUR_1 => some 60
  | .HOUR_4 => some 240
  | .DAY_1 => some 1440
  | .WEEK_1 => some 10080
  | .MONTH_1 => some 43200
  | .TICK => none

/-- buffer_multiplier embeds base_provider.py line 205. -/
def buffer_multiplier (tf : TimeFrame) : ℚ :=
  if tf = TimeFrame.DAY_1 ∨ tf = TimeFrame.WEEK_1 then 3 / 2 else 6 / 5

/-- _calculate_start_date embeds `BaseDataProvider._calculate_start_date`
(base_provider.py lines 185-207), with datetimes as rational minutes. -/
def _calculate_start_date (end_date : ℚ) (tf : TimeFrame) (bars : Nat) : ℚ :=
  end_date - (timeframe_deltas tf).getD 1440 * (bars : ℚ) * buffer_multiplier tf

/-- fetch_latest embeds `BaseDataProvider.fetch_latest` (base_provider.py
lines 123-142); `now` stands for `datetime.now()`. -/
def fetch_latest (p : Provider) (now : ℚ) (symbol : String) (tf : TimeFrame)
    (bars : Nat) : Except String DataFrame :=
  p.fetchHistoricalImpl symbol (_calculate_start_date now tf bars) now tf

/-- validate_symbol embeds `BaseDataProvider.validate_symbol`
(base_provider.py lines 144-158): `fetch_latest(symbol, bars=1)` inside
`try`, `not data.empty` on success, `False` on any exception. -/
def validate_symbol (p : Provider) (now : ℚ) (symbol : String) : Bool :=
  match fetch_latest p now symbol TimeFrame.DAY_1 1 with
  | .ok data => !data.emptyB
  | .error _ => false

/-- fetchLatestStartSpec restates the claim's start-date formula verbatim:
`end − bars × interval(timeframe) × bufferFactor` with bufferFactor 1.5 for
the daily and weekly timeframes and 1.2 for every other timeframe. -/
def fetchLatestStartSpec (now : ℚ) (tf : TimeFrame) (bars : Nat) : ℚ :=
  now - (bars : ℚ) * (timeframe_deltas tf).getD 1440 *
    (if tf = TimeFrame.DAY_1 ∨ tf = TimeFrame.WEEK_1 then 15 / 10 else 12 / 10)

end BaseDataProvider

namespace YFinanceProvider

/-- TIMEFRAME_MAP embeds `YFinanceProvider.TIMEFRAME_MAP`
(yfinance_provider.py lines 22-31); `TICK` and `HOUR_4` are absent. -/
def TIMEFRAME_MAP : TimeFrame → Option String
  | .MIN_1 => some "1m"
  | .MIN_5 => some "5m"
  | .MIN_15 => some "15m"
  | .MIN_30 => some "30m"
  | .HOUR_1 => some "1h"
  | .DAY_1 => some "1d"
  | .WEEK_1 => some "1wk"
  | .MONTH_1 => some "1mo"
  | _ => none

/-- yfRenameMap embeds the rename dictionary of `fetch_historical`
(yfinance_provider.py lines 91-99). -/
def yfRenameMap (c : String) : String :=
  match c with
  | "Date" => "timestamp"
  | "Datetime" => "timestamp"
  | "Open" => "open"
  | "High" => "high"
  | "Low" => "low"
  | "Close" => "close"
  | "Volume" => "volume"
  | _ => c

/-- resetIndex embeds `df.reset_index(inplace=True)`: the index becomes the
first column. -/
def resetIndex (df : DataFrame) : DataFrame :=
  { columns := df.indexName.getD ("index") :: df.columns,
    rows := List.zipWith (fun v r => v :: r) df.indexVals df.rows,
    indexName := none, indexIsDatetime := false, indexVals := [] }

def selectKeyErrorMessage : String := "KeyError: missing required column"

def unsupportedTimeframeMessage : String := "Unsupported timeframe"

/-- selectColumns embeds `df = df[required_cols]` (raising KeyError when a
label is absent). -/
def selectColumns (df : DataFrame) (names : List String) : Except String DataFrame :=
  if names.all (fun n => (findIdx n df.columns).isSome) then
    .ok { df with
          columns := names,
          rows := df.rows.map (fun r => names.map (fun n =>
            match findIdx n df.columns with
            | some i => getCell r i
            | none => Value.missing)) }
  else .error selectKeyErrorMessage

/-- fetchPipeline is the body of the `try` block of
`YFinanceProvider.fetch_historical` (yfinance_provider.py lines 65-109):
timeframe mapping (raising on an unmapped timeframe), the downloaded frame or
the exception it raised (`history`), the early empty return, reset_index,
rename, column selection, and standardization. -/
def fetchPipeline (tf : TimeFrame) (history : Except String DataFrame) :
    Except String DataFrame :=
  match TIMEFRAME_MAP tf with
  | none => .error unsupportedTimeframeMessage
  | some _ =>
    match history with
    | .error e => .error e
    | .ok df =>
      if df.emptyB then .ok emptyDataFrame
      else
        match selectColumns (renameWith yfRenameMap (resetIndex df))
            BaseDataProvider.default_required with
        | .error e => .error e
        | .ok df2 => BaseDataProvider.standardize_dataframe df2 none

/-- fetch_historical embeds `YFinanceProvider.fetch_historical`
(yfinance_provider.py lines 56-113): the whole pipeline is wrapped in
`try/except Exception`, and every exception is logged and converted to
`return pd.DataFrame()`. -/
def fetch_historical (tf : TimeFrame) (history : Except String DataFrame) :
    DataFrame :=
  match fetchPipeline tf history with
  | .ok df => df
  | .error _ => emptyDataFrame

def netErrorMessage : String := "HTTPError: connection failed"

end YFinanceProvider

/-- c7EmptyDf has a column but no rows: pandas `df.empty` is true for it. -/
def c7EmptyDf : DataFrame := ⟨["open"], [], none, false, []⟩

/-- c7MissingDf is non-empty but lacks every required column except `open`. -/
def c7MissingDf : DataFrame := ⟨["open"], [[Value.num 1]], none, false, []⟩

namespace TimescaleHandler

theorem entryKey_updateEntry (e : OhlcEntry) (b : Bar) (src : Option String) :
    entryKey (updateEntry e b src) = entryKey e := by
  cases src <;> rfl

theorem entryKey_toEntry (symbol timeframe : String) (src : Option String)
    (b : Bar) : entryKey (toEntry symbol timeframe src b) = barKey symbol timeframe b := rfl

theorem lookupKey_upsertRow (symbol timeframe : String) (src : Option String)
    (s : List OhlcEntry) (b : Bar) (k : Int × String × String) :
    lookupKey (upsertRow symbol timeframe src s b) k =
      if barKey symbol timeframe b = k then
        some (applyConflict (lookupKey s k) symbol timeframe src b)
      else lookupKey s k := by
  induction s with
  | nil =>
    by_cases h : barKey symbol timeframe b = k
    · simp [upsertRow, lookupKey, entryKey_toEntry, h, applyConflict]
    · simp [upsertRow, lookupKey, entryKey_toEntry, h]
  | cons e es ih =>
    by_cases he : entryKey e = barKey symbol timeframe b
    · simp only [upsertRow, if_pos he, lookupKey, entryKey_updateEntry]
      by_cases hk : barKey symbol timeframe b = k
      · have : entryKey e = k := he.trans hk
        simp [this, hk, lookupKey, applyConflict]
      · have : ¬ entryKey e = k := fun h => hk (he.symm.trans h)
        simp [this, hk, lookupKey]
    · simp only [upsertRow, if_neg he, lookupKey]
      by_cases hek : entryKey e = k
      · have : ¬ barKey symbol timeframe b = k := fun h => he (hek.trans h.symm)
        simp [hek, this]
      · simp [lookupKey, hek, ih]

theorem keys_upsertRow (symbol timeframe : String) (src : Option String)
    (s : List OhlcEntry) (b : Bar) :
    keys (upsertRow symbol timeframe src s b) =
      if barKey symbol timeframe b ∈ keys s then keys s
      else keys s ++ [barKey symbol timeframe b] := by
  induction s with
  | nil => simp [upsertRow, keys, entryKey_toEntry]
  | cons e es ih =>
    by_cases he : entryKey e = barKey symbol timeframe b
    · simp [upsertRow, if_pos he, keys, entryKey_updateEntry, he]
    · have hne : ¬ barKey symbol timeframe b = entryKey e := fun h => he h.symm
      simp only [upsertRow, if_neg he, keys, List.map_cons, List.mem_cons]
      simp only [keys] at ih
      by_cases hm : barKey symbol timeframe b ∈ List.map entryKey es
      · simp [ih, hm, hne]
      · simp [ih, hm, hne]

theorem mem_keys_upsertRow (symbol timeframe : String) (src : Option String)
    (s : List OhlcEntry) (b : Bar) (k : Int × String × String) :
    k ∈ keys (upsertRow symbol timeframe src s b) ↔
      k ∈ keys s ∨ k = barKey symbol timeframe b := by
  rw [keys_upsertRow]
  by_cases hm : barKey symbol timeframe b ∈ keys s
  · simp only [if_pos hm]
    constructor
    · exact Or.inl
    · rintro (h | rfl)
      · exact h
      · exact hm
  · simp [if_neg hm]

theorem nodupKeys_upsertRow (symbol timeframe : String) (src : Option String)
    (s : List OhlcEntry) (b : Bar) (h : NodupKeys s) :
    NodupKeys (upsertRow symbol timeframe src s b) := by
  unfold NodupKeys at *
  rw [keys_upsertRow]
  by_cases hm : barKey symbol timeframe b ∈ keys s
  · simpa [hm] using h
  · simp only [if_neg hm]
    rw [← List.concat_eq_append]
    exact h.concat hm

theorem lastWithKey_key (symbol timeframe : String) (k : Int × String × String)
    (B : List Bar) (b : Bar) (h : lastWithKey symbol timeframe k B = some b) :
    barKey symbol timeframe b = k := by
  induction B with
  | nil => simp [lastWithKey] at h
  | cons b0 B ih =>
    simp only [lastWithKey] at h
    cases hr : lastWithKey symbol timeframe k B with
    | some r => rw [hr] at h; cases h; exact ih hr
    | none =>
      rw [hr] at h
      by_cases hb : barKey symbol timeframe b0 = k
      · rw [if_pos hb] at h; cases h; exact hb
      · rw [if_neg hb] at h; cases h

theorem updateEntry_applyConflict (symbol timeframe : String)
    (src : Option String) (o : Option OhlcEntry) (b b' : Bar)
    (h : b.time = b'.time) :
    updateEntry (applyConflict o symbol timeframe src b) b' src =
      applyConflict o symbol timeframe src b' := by
  cases o <;> cases src <;> simp [applyConflict, updateEntry, toEntry, h]

theorem applyRows_cons (symbol timeframe : String) (src : Option String)
    (s : List OhlcEntry) (b : Bar) (B : List Bar) :
    applyRows symbol timeframe src s (b :: B) =
      applyRows symbol timeframe src (upsertRow symbol timeframe src s b) B := rfl

theorem applyRows_append (symbol timeframe : String) (src : Option String)
    (s : List OhlcEntry) (B1 B2 : List Bar) :
    applyRows symbol timeframe src s (B1 ++ B2) =
      applyRows symbol timeframe src (applyRows symbol timeframe src s B1) B2 :=
  List.foldl_append _ _ _ _

theorem lookupKey_applyRows (symbol timeframe : String) (src : Option String)
    (B : List Bar) : ∀ (s : List OhlcEntry) (k : Int × String × String),
    lookupKey (applyRows symbol timeframe src s B) k =
      match lastWithKey symbol timeframe k B with
      | some b => some (applyConflict (lookupKey s k) symbol timeframe src b)
      | none => lookupKey s k := by
  induction B with
  | nil => intro s k; rfl
  | cons b B ih =>
    intro s k
    rw [applyRows_cons, ih]
    cases hr : lastWithKey symbol timeframe k B with
    | some r =>
      have hrk : barKey symbol timeframe r = k := lastWithKey_key _ _ _ _ _ hr
      simp only [lastWithKey, hr, lookupKey_upsertRow]
      by_cases hb : barKey symbol timeframe b = k
      · rw [if_pos hb]
        have htime : b.time = r.time := by
          have h1 := congrArg Prod.fst hb
          have h2 := congrArg Prod.fst hrk
          simpa [barKey] using h1.trans h2.symm
        exact congrArg some
          (updateEntry_applyConflict symbol timeframe src (lookupKey s k) b r htime)
      · rw [if_neg hb]
    | none =>
      simp only [lastWithKey, hr, lookupKey_upsertRow]
      by_cases hb : barKey symbol timeframe b = k
      · simp [hb]
      · simp [hb]

theorem keys_applyRows_of_subset (symbol timeframe : String) (src : Option String)
    (B : List Bar) : ∀ (s : List OhlcEntry),
    (∀ b ∈ B, barKey symbol timeframe b ∈ keys s) →
    keys (applyRows symbol timeframe src s B) = keys s := by
  induction B with
  | nil => intro s _; rfl
  | cons b B ih =>
    intro s h
    rw [applyRows_cons]
    have hb : barKey symbol timeframe b ∈ keys s := h b (List.mem_cons_self _ _)
    have hkeys : keys (upsertRow symbol timeframe src s b) = keys s := by
      rw [keys_upsertRow, if_pos hb]
    rw [ih _ (fun b' hb' => by rw [hkeys]; exact h b' (List.mem_cons_of_mem _ hb')), hkeys]

theorem mem_keys_applyRows_mono (symbol timeframe : String) (src : Option String)
    (B : List Bar) : ∀ (s : List OhlcEntry) (k : Int × String × String),
    k ∈ keys s → k ∈ keys (applyRows symbol timeframe src s B) := by
  induction B with
  | nil => intro s k h; exact h
  | cons b B ih =>
    intro s k h
    rw [applyRows_cons]
    exact ih _ _ ((mem_keys_upsertRow _ _ _ _ _ _).mpr (Or.inl h))

theorem mem_keys_applyRows_self (symbol timeframe : String) (src : Option String)
    (B : List Bar) : ∀ (s : List OhlcEntry), ∀ b ∈ B,
    barKey symbol timeframe b ∈ keys (applyRows symbol timeframe src s B) := by
  induction B with
  | nil => intro s b h; simp at h
  | cons b0 B ih =>
    intro s b hb
    rw [applyRows_cons]
    rcases List.mem_cons.mp hb with rfl | hmem
    · exact mem_keys_applyRows_mono _ _ _ _ _ _
        ((mem_keys_upsertRow _ _ _ _ _ _).mpr (Or.inr rfl))
    · exact ih _ b hmem

theorem nodupKeys_applyRows (symbol timeframe : String) (src : Option String)
    (B : List Bar) : ∀ (s : List OhlcEntry), NodupKeys s →
    NodupKeys (applyRows symbol timeframe src s B) := by
  induction B with
  | nil => intro s h; exact h
  | cons b B ih =>
    intro s h
    rw [applyRows_cons]
    exact ih _ (nodupKeys_upsertRow _ _ _ _ _ h)

theorem lookupKey_eq_none (s : List OhlcEntry) (k : Int × String × String)
    (h : k ∉ keys s) : lookupKey s k = none := by
  induction s with
  | nil => rfl
  | cons e es ih =>
    simp only [keys, List.map_cons, List.mem_cons, not_or] at h
    obtain ⟨h1, h2⟩ := h
    simp only [lookupKey, if_neg (fun he : entryKey e = k => h1 he.symm)]
    exact ih h2

theorem store_ext (t1 : List OhlcEntry) : ∀ (t2 : List OhlcEntry),
    NodupKeys t1 → keys t1 = keys t2 →
    (∀ k, lookupKey t1 k = lookupKey t2 k) → t1 = t2 := by
  induction t1 with
  | nil =>
    intro t2 _ hk _
    cases t2 with
    | nil => rfl
    | cons e2 r2 => simp [keys] at hk
  | cons e1 r1 ih =>
    intro t2 hnd hk hl
    cases t2 with
    | nil => simp [keys] at hk
    | cons e2 r2 =>
      simp only [keys, List.map_cons, List.cons.injEq] at hk
      have hke : entryKey e1 = entryKey e2 := hk.1
      have hkr : keys r1 = keys r2 := hk.2
      have he : e1 = e2 := by
        have h := hl (entryKey e1)
        simp only [lookupKey, if_pos rfl, if_pos hke.symm] at h
        exact Option.some.injEq _ _ ▸ h
      have hnd1 : entryKey e1 ∉ keys r1 := by
        have := hnd
        unfold NodupKeys keys at this
        simp only [List.map_cons, List.nodup_cons] at this
        exact this.1
      have hl' : ∀ k, lookupKey r1 k = lookupKey r2 k := by
        intro k
        by_cases hk1 : entryKey e1 = k
        · rw [lookupKey_eq_none r1 k (hk1 ▸ hnd1),
            lookupKey_eq_none r2 k (by rw [← hkr]; exact hk1 ▸ hnd1)]
        · have h := hl k
          simp only [lookupKey, if_neg hk1, if_neg (hke ▸ hk1)] at h
          exact h
      have hndr : NodupKeys r1 := by
        have := hnd
        unfold NodupKeys keys at this ⊢
        simp only [List.map_cons, List.nodup_cons] at this
        exact this.2
      rw [he, ih r2 hndr hkr hl']

theorem applyRows_idem (symbol timeframe : String) (src : Option String)
    (s : List OhlcEntry) (B : List Bar) (h : NodupKeys s) :
    applyRows symbol timeframe src (applyRows symbol timeframe src s B) B =
      applyRows symbol timeframe src s B := by
  apply store_ext
  · exact nodupKeys_applyRows _ _ _ _ _ (nodupKeys_applyRows _ _ _ _ _ h)
  · exact keys_applyRows_of_subset symbol timeframe src B
      (applyRows symbol timeframe src s B)
      (fun b hb => mem_keys_applyRows_self symbol timeframe src B s b hb)
  · intro k
    cases hr : lastWithKey symbol timeframe k B with
    | none =>
      rw [lookupKey_applyRows]
      simp [hr]
    | some b =>
      rw [lookupKey_applyRows]
      simp only [hr]
      rw [lookupKey_applyRows]
      simp only [hr]
      exact congrArg some
        (updateEntry_applyConflict symbol timeframe src (lookupKey s k) b b rfl)

theorem chunksOfFuel_join (n : Nat) (hn : 0 < n) :
    ∀ (fuel : Nat) (l : List Bar), l.length ≤ fuel →
    (chunksOfFuel n fuel l).flatten = l := by
  intro fuel
  induction fuel with
  | zero =>
    intro l hl
    cases l with
    | nil => rfl
    | cons x xs => simp at hl
  | succ fuel ih =>
    intro l hl
    cases l with
    | nil => rfl
    | cons x xs =>
      simp only [chunksOfFuel, List.flatten_cons]
      rw [ih ((x :: xs).drop n) ?_, List.take_append_drop]
      have : ((x :: xs).drop n).length = (x :: xs).length - n := List.length_drop _ _
      omega

theorem chunksOf_join (n : Nat) (hn : 0 < n) (l : List Bar) :
    (chunksOf n l).flatten = l :=
  chunksOfFuel_join n hn l.length l le_rfl

theorem chunksOfFuel_sublist (n : Nat) :
    ∀ (fuel : Nat) (l c : List Bar), c ∈ chunksOfFuel n fuel l → c.Sublist l := by
  intro fuel
  induction fuel with
  | zero =>
    intro l c hc
    cases l <;> simp [chunksOfFuel] at hc
  | succ fuel ih =>
    intro l c hc
    cases l with
    | nil => simp [chunksOfFuel] at hc
    | cons x xs =>
      simp only [chunksOfFuel, List.mem_cons] at hc
      rcases hc with rfl | hc
      · exact List.take_sublist _ _
      · exact (ih _ c hc).trans (List.drop_sublist _ _)

theorem chunksOf_sublist (n : Nat) (l c : List Bar) (hc : c ∈ chunksOf n l) :
    c.Sublist l :=
  chunksOfFuel_sublist n l.length l c hc

theorem chunksOf_nil (n : Nat) : chunksOf n [] = [] := rfl

/-- processChunks_ok: when no failure is injected and every chunk is free of
intra-chunk duplicate keys, the loop upserts every chunk in order and counts
every row. -/
theorem processChunks_ok (symbol timeframe : String) (src : Option String)
    (cs : List (List Bar))
    (h : ∀ c ∈ cs, (c.map (barKey symbol timeframe)).Nodup) :
    ∀ (w : List OhlcEntry) (idx : Nat),
    processChunks symbol timeframe src w cs idx none =
      .ok (cs.foldl (fun s c => applyRows symbol timeframe src s c) w,
           (cs.map List.length).sum) := by
  induction cs with
  | nil => intro w idx; rfl
  | cons c rest ih =>
    intro w idx
    have hc : (c.map (barKey symbol timeframe)).Nodup := h c (List.mem_cons_self _ _)
    have hrest : ∀ c' ∈ rest, (c'.map (barKey symbol timeframe)).Nodup :=
      fun c' hc' => h c' (List.mem_cons_of_mem _ hc')
    simp only [processChunks, executeValuesUpsert, if_pos hc, ih hrest,
      List.foldl_cons, List.map_cons, List.sum_cons]
    simp

/-- processChunks_ok_inv: a successful run certifies that every chunk was
free of intra-chunk duplicate keys. -/
theorem processChunks_ok_inv (symbol timeframe : String) (src : Option String)
    (cs : List (List Bar)) :
    ∀ (w : List OhlcEntry) (idx : Nat) (p : List OhlcEntry × Nat),
    processChunks symbol timeframe src w cs idx none = .ok p →
    ∀ c ∈ cs, (c.map (barKey symbol timeframe)).Nodup := by
  induction cs with
  | nil => intro w idx p _ c hc; simp at hc
  | cons c0 rest ih =>
    intro w idx p hp c hc
    simp only [processChunks] at hp
    rw [if_neg (by simp)] at hp
    by_cases hnd : (c0.map (barKey symbol timeframe)).Nodup
    · rw [executeValuesUpsert, if_pos hnd] at hp
      rcases List.mem_cons.mp hc with rfl | hmem
      · exact hnd
      · cases hrec : processChunks symbol timeframe src
            (applyRows symbol timeframe src w c0) rest (idx + 1) none with
        | ok q => exact ih _ _ q hrec _ hmem
        | error e =>
          dsimp only at hp
          rw [hrec] at hp
          simp at hp
    · rw [executeValuesUpsert, if_neg hnd] at hp
      simp at hp

/-- processChunks_fail: an injected database failure at a batch index inside
the loop makes the whole loop raise. -/
theorem processChunks_fail (symbol timeframe : String) (src : Option String) :
    ∀ (cs : List (List Bar)) (w : List OhlcEntry) (idx k : Nat), k < cs.length →
    ∃ e, processChunks symbol timeframe src w cs idx (some (idx + k)) = .error e := by
  intro cs
  induction cs with
  | nil => intro w idx k hk; simp at hk
  | cons c rest ih =>
    intro w idx k hk
    by_cases hk0 : k = 0
    · subst hk0
      exact ⟨injectedFailureMessage, by simp [processChunks]⟩
    · have hif : ((some (idx + k) : Option Nat) = some idx) = False := by
        simp
        omega
      cases hex : executeValuesUpsert symbol timeframe src w c with
      | error e =>
        exact ⟨e, by simp [processChunks, hif, hex]⟩
      | ok w2 =>
        rcases Nat.exists_eq_succ_of_ne_zero hk0 with ⟨k2, rfl⟩
        have hidx : idx + (k2 + 1) = idx + 1 + k2 := by omega
        obtain ⟨e, he⟩ := ih w2 (idx + 1) k2 (Nat.lt_of_succ_lt_succ hk)
        rw [hidx] at hif ⊢
        exact ⟨e, by simp [processChunks, hif, hex, he]⟩

theorem foldl_applyRows_flatten (symbol timeframe : String) (src : Option String)
    (cs : List (List Bar)) : ∀ (w : List OhlcEntry),
    cs.foldl (fun s c => applyRows symbol timeframe src s c) w =
      applyRows symbol timeframe src w cs.flatten := by
  induction cs with
  | nil => intro w; rfl
  | cons c rest ih =>
    intro w
    simp only [List.foldl_cons, List.flatten_cons, ih, applyRows_append]

/-- C1 (amended): all chunks of one `insert_ohlc_data` call run in a single
transaction with one commit after the loop; a write failure at any batch rolls
the entire call back — the committed store is unchanged, no chunk of this call
survives — and the underlying database exception propagates (the repository
defines no StorageError wrapper). -/
theorem insert_ohlc_data_rolls_back_all_chunks
    (store : List OhlcEntry) (data : List Bar) (symbol timeframe : String)
    (src : Option String) (batch_size k : Nat)
    (hk : k < (chunksOf batch_size data).length) :
    (insert_ohlc_data store data symbol timeframe src batch_size (some k)).store = store ∧
    (∃ e, (insert_ohlc_data store data symbol timeframe src batch_size (some k)).result =
      .error e) ∧
    (insert_ohlc_data store data symbol timeframe src batch_size
      (some k)).acquiredConnection = true := by
  have hdata : ¬ data = [] := by
    intro h
    subst h
    simp [chunksOf, chunksOfFuel] at hk
  obtain ⟨e, he⟩ :=
    processChunks_fail symbol timeframe src (chunksOf batch_size data) store 0 k hk
  rw [Nat.zero_add] at he
  rw [insert_ohlc_data, if_neg hdata, he]
  exact ⟨rfl, ⟨e, rfl⟩, rfl⟩

/-- C1 counterexample: with `batch_size = 1`, two rows, and the database
failing at the second batch, the claim requires the first chunk to stay
committed; instead the committed store is still empty afterwards — the first
chunk was rolled back together with the failing one. -/
theorem insert_ohlc_data_prior_chunk_not_committed :
    (insert_ohlc_data [] [exBar1, exBar2] exSymbol exTimeframe none 1 (some 1)).store = [] ∧
    lookupKey (insert_ohlc_data [] [exBar1, exBar2] exSymbol exTimeframe none 1
        (some 1)).store (barKey exSymbol exTimeframe exBar1) = none := by
  exact ⟨rfl, rfl⟩

/-- insert_ohlc_data_rolls_back_all_chunks at a concrete input. -/
theorem insert_ohlc_data_rolls_back_all_chunks_witness :
    1 < (chunksOf 1 [exBar1, exBar2]).length ∧
    ((insert_ohlc_data [] [exBar1, exBar2] exSymbol exTimeframe none 1 (some 1)).store = [] ∧
     (∃ e, (insert_ohlc_data [] [exBar1, exBar2] exSymbol exTimeframe none 1
        (some 1)).result = .error e) ∧
     (insert_ohlc_data [] [exBar1, exBar2] exSymbol exTimeframe none 1
        (some 1)).acquiredConnection = true) :=
  ⟨by decide,
   insert_ohlc_data_rolls_back_all_chunks [] [exBar1, exBar2] exSymbol exTimeframe
     none 1 1 (by decide)⟩

/-- C3: replaying an identical batch is idempotent — the second run returns
the very same result (same committed store, same reported count) and the
store keeps one row per key (no duplicate is created). -/
theorem insert_ohlc_data_idempotent
    (store : List OhlcEntry) (data : List Bar) (symbol timeframe : String)
    (src : Option String) (batch_size : Nat)
    (hb : 0 < batch_size) (hnd : NodupKeys store) :
    insert_ohlc_data
        (insert_ohlc_data store data symbol timeframe src batch_size none).store
        data symbol timeframe src batch_size none =
      insert_ohlc_data store data symbol timeframe src batch_size none ∧
    NodupKeys (insert_ohlc_data store data symbol timeframe src batch_size none).store := by
  by_cases hd : data = []
  · subst hd
    exact ⟨rfl, hnd⟩
  · cases hres : processChunks symbol timeframe src store (chunksOf batch_size data) 0 none with
    | error e =>
      have h1 : insert_ohlc_data store data symbol timeframe src batch_size none =
          ⟨store, .error e, true⟩ := by
        rw [insert_ohlc_data, if_neg hd, hres]
      rw [h1]
      exact ⟨h1, hnd⟩
    | ok p =>
      obtain ⟨w, n⟩ := p
      have hcnd := processChunks_ok_inv symbol timeframe src
        (chunksOf batch_size data) store 0 (w, n) hres
      have hrun := processChunks_ok symbol timeframe src
        (chunksOf batch_size data) hcnd store 0
      rw [foldl_applyRows_flatten, chunksOf_join batch_size hb] at hrun
      rw [hres] at hrun
      have hp := Except.ok.inj hrun
      have hw : w = applyRows symbol timeframe src store data := (Prod.ext_iff.mp hp).1
      have hn : n = ((chunksOf batch_size data).map List.length).sum := (Prod.ext_iff.mp hp).2
      subst hw
      subst hn
      have hNod : NodupKeys (applyRows symbol timeframe src store data) :=
        nodupKeys_applyRows symbol timeframe src data store hnd
      have h1 : insert_ohlc_data store data symbol timeframe src batch_size none =
          ⟨applyRows symbol timeframe src store data,
           .ok (((chunksOf batch_size data).map List.length).sum), true⟩ := by
        rw [insert_ohlc_data, if_neg hd, hres]
      have hrun2 := processChunks_ok symbol timeframe src (chunksOf batch_size data) hcnd
        (applyRows symbol timeframe src store data) 0
      rw [foldl_applyRows_flatten, chunksOf_join batch_size hb,
        applyRows_idem symbol timeframe src store data hnd] at hrun2
      have h2 : insert_ohlc_data (applyRows symbol timeframe src store data) data
          symbol timeframe src batch_size none =
          ⟨applyRows symbol timeframe src store data,
           .ok (((chunksOf batch_size data).map List.length).sum), true⟩ := by
        rw [insert_ohlc_data, if_neg hd, hrun2]
      rw [h1]
      exact ⟨h2, hNod⟩

/-- insert_ohlc_data_idempotent at a concrete input. -/
theorem insert_ohlc_data_idempotent_witness :
    0 < 1000 ∧ NodupKeys ([] : List OhlcEntry) ∧
    (insert_ohlc_data
        (insert_ohlc_data [] [exBar1, exBar2] exSymbol exTimeframe none 1000 none).store
        [exBar1, exBar2] exSymbol exTimeframe none 1000 none =
      insert_ohlc_data [] [exBar1, exBar2] exSymbol exTimeframe none 1000 none ∧
     NodupKeys (insert_ohlc_data [] [exBar1, exBar2] exSymbol exTimeframe
        none 1000 none).store) :=
  ⟨by decide, List.nodup_nil,
   insert_ohlc_data_idempotent [] [exBar1, exBar2] exSymbol exTimeframe none 1000
     (by decide) List.nodup_nil⟩

/-- C10: a successful call reports exactly the number of input rows (updates
counted like inserts), the committed store is the input rows upserted in
order, and the empty input returns 0 without acquiring a connection. -/
theorem insert_ohlc_data_count
    (store : List OhlcEntry) (data : List Bar) (symbol timeframe : String)
    (src : Option String) (batch_size : Nat)
    (hb : 0 < batch_size) (hnd : (data.map (barKey symbol timeframe)).Nodup) :
    insert_ohlc_data store data symbol timeframe src batch_size none =
      ⟨applyRows symbol timeframe src store data, .ok data.length, !data.isEmpty⟩ := by
  by_cases hd : data = []
  · subst hd
    rfl
  · have hcnd : ∀ c ∈ chunksOf batch_size data, (c.map (barKey symbol timeframe)).Nodup :=
      fun c hc => hnd.sublist ((chunksOf_sublist batch_size data c hc).map _)
    have hrun := processChunks_ok symbol timeframe src (chunksOf batch_size data) hcnd store 0
    rw [foldl_applyRows_flatten, chunksOf_join batch_size hb] at hrun
    have hsum : ((chunksOf batch_size data).map List.length).sum = data.length := by
      rw [← List.length_flatten, chunksOf_join batch_size hb]
    have hemp : data.isEmpty = false := by
      cases data with
      | nil => exact absurd rfl hd
      | cons x xs => rfl
    rw [insert_ohlc_data, if_neg hd, hrun, hsum, hemp]
    rfl

/-- insert_ohlc_data_count at a concrete input. -/
theorem insert_ohlc_data_count_witness :
    0 < 1000 ∧ (([exBar1, exBar2].map (barKey exSymbol exTimeframe)).Nodup) ∧
    insert_ohlc_data [] [exBar1, exBar2] exSymbol exTimeframe none 1000 none =
      ⟨applyRows exSymbol exTimeframe none [] [exBar1, exBar2], .ok 2,
       !([exBar1, exBar2] : List Bar).isEmpty⟩ :=
  ⟨by decide, by decide,
   insert_ohlc_data_count [] [exBar1, exBar2] exSymbol exTimeframe none 1000
     (by decide) (by decide)⟩

/-- C4: the gaps `detect_gaps` reports are entirely independent of its
`expected_interval` argument — the method computes the interval and then
never passes it to `check_data_gaps` — and on a concrete daily store with one
day missing it still reports that sub-threshold gap when the caller asked for
a 3-day (4320-minute) threshold. -/
theorem detect_gaps_independent_of_expected_interval :
    (∀ (store : List OhlcEntry) (symbol timeframe : String) (startT endT : Int)
       (i1 i2 : Option Int),
       detect_gaps store symbol timeframe startT endT i1 =
         detect_gaps store symbol timeframe startT endT i2) ∧
    detect_gaps gapStore exSymbol exTimeframe 0 14400 (some 4320) = [(5760, 8640)] :=
  ⟨fun _ _ _ _ _ _ _ => rfl, by decide⟩

/-- C5: the quality score equals the spec's clamp formula (with issueCount
the number of itemized issue categories present), always lies in [0, 100],
and the empty result set scores 0 with the explicit no-data issue. -/
theorem get_data_quality_score_spec_correct :
    (∀ df : List QRow,
      (get_data_quality_score df).quality_score = quality_score_spec df ∧
      0 ≤ (get_data_quality_score df).quality_score ∧
      (get_data_quality_score df).quality_score ≤ 100) ∧
    get_data_quality_score [] = ⟨0, 0, [noDataMessage]⟩ := by
  constructor
  · intro df
    by_cases hd : df = []
    · subst hd
      refine ⟨rfl, le_refl 0, show (0 : ℚ) ≤ 100 by norm_num⟩
    · have hlen : (((if 0 < missingCount df then [missingValuesMessage (missingCount df)]
          else []) ++
          (if 0 < zeroVolumeCount df then [zeroVolumeMessage (zeroVolumeCount df)] else []) ++
          (if 0 < outlierCount df then [outliersMessage (outlierCount df)] else [])).length)
          = issueCategoryCount df := by
        unfold issueCategoryCount
        split_ifs <;> simp
      simp only [get_data_quality_score, quality_score_spec, if_neg hd]
      refine ⟨?_, le_max_left 0 _, max_le (by norm_num) (min_le_left _ _)⟩
      rw [hlen]
      have harith : (1 - (missingCount df : ℚ) / ((df.length : ℚ) * 7)) * 100 -
          (issueCategoryCount df : ℚ) * 5 =
          (1 - (missingCount df : ℚ) / (7 * (df.length : ℚ))) * 100 -
          5 * (issueCategoryCount df : ℚ) := by
        ring
      rw [harith]
  · rfl

end TimescaleHandler

namespace BaseDataProvider

/-- C7 (amended): when the input has at least one row and one column (pandas
`df.empty` is false) and the pipeline up to the check succeeds, any required
column still absent makes standardization fail with the schema error listing
the missing columns; an empty input, however, is returned unchanged before
the check ever runs. -/
theorem standardize_dataframe_missing_columns_error
    (df : DataFrame) (req : Option (List String)) (df3 : DataFrame)
    (hne : df.emptyB = false)
    (hprep : prepared df = .ok df3)
    (hmiss : (req.getD default_required).filter
      (fun c => (findIdx c df3.columns).isNone) ≠ []) :
    standardize_dataframe df req =
      .error (schemaErrorMessage
        ((req.getD default_required).filter (fun c => (findIdx c df3.columns).isNone))) := by
  rw [standardize_dataframe, if_neg (by rw [hne]; exact Bool.false_ne_true), hprep]
  dsimp only
  have hfalse : ((req.getD default_required).filter
      (fun c => (findIdx c df3.columns).isNone)).isEmpty = false := by
    cases hv : (req.getD default_required).filter (fun c => (findIdx c df3.columns).isNone) with
    | nil => exact absurd hv hmiss
    | cons a l => rfl
  rw [if_neg (by rw [hfalse]; exact Bool.false_ne_true)]

/-- C7 counterexample: an input with zero rows whose required columns are
almost all absent is returned unchanged — no SchemaError is raised, refuting
the claim's "including when the input has no rows at all". -/
theorem standardize_dataframe_empty_input_skips_check :
    standardize_dataframe c7EmptyDf none = .ok c7EmptyDf ∧
    default_required.filter (fun c => (findIdx c c7EmptyDf.columns).isNone) ≠ [] :=
  ⟨rfl, by decide⟩

/-- standardize_dataframe_missing_columns_error at a concrete one-row input. -/
theorem standardize_dataframe_missing_columns_error_witness :
    (c7MissingDf.emptyB = false ∧ prepared c7MissingDf = .ok c7MissingDf ∧
     ((none : Option (List String)).getD default_required).filter
       (fun c => (findIdx c c7MissingDf.columns).isNone) ≠ []) ∧
    standardize_dataframe c7MissingDf none =
      .error (schemaErrorMessage
        (((none : Option (List String)).getD default_required).filter
          (fun c => (findIdx c c7MissingDf.columns).isNone))) :=
  ⟨⟨rfl, rfl, by decide⟩,
   standardize_dataframe_missing_columns_error c7MissingDf none c7MissingDf rfl rfl
     (by decide)⟩

/-- C8: validate_symbol is a total boolean predicate: true exactly when
`fetch_latest(symbol, bars=1)` succeeds with a non-empty frame; a raised
exception is swallowed and reported as false. -/
theorem validate_symbol_iff_nonempty_ok (p : Provider) (now : ℚ) (symbol : String) :
    validate_symbol p now symbol = true ↔
      ∃ df, fetch_latest p now symbol TimeFrame.DAY_1 1 = .ok df ∧ df.emptyB = false := by
  unfold validate_symbol
  cases h : fetch_latest p now symbol TimeFrame.DAY_1 1 with
  | error e => simp [h]
  | ok df => simp [h]

/-- C9: fetch_latest delegates to the provider's fetch_historical with
`start = now − bars × interval(timeframe) × bufferFactor`, bufferFactor
being 1.5 for the daily and weekly timeframes and 1.2 for every other
timeframe, and `end = now`. -/
theorem fetch_latest_start_formula (p : Provider) (now : ℚ) (symbol : String)
    (tf : TimeFrame) (bars : Nat) :
    fetch_latest p now symbol tf bars =
      p.fetchHistoricalImpl symbol (fetchLatestStartSpec now tf bars) now tf := by
  unfold fetch_latest
  congr 1
  cases tf <;>
    simp only [_calculate_start_date, fetchLatestStartSpec, buffer_multiplier,
      timeframe_deltas, reduceCtorEq, eq_self_iff_true, true_or, or_self, or_false,
      false_or, if_true, if_false, Option.getD_some, Option.getD_none] <;>
    ring

end BaseDataProvider

namespace YFinanceProvider

/-- C2 (amended): YFinanceProvider.fetch_historical never raises — every
failure of the underlying fetch (network, auth, rate limit, anything the
`except Exception` block catches) is swallowed and an empty frame is
returned. -/
theorem fetch_historical_failure_returns_empty (tf : TimeFrame) (e : String) :
    fetch_historical tf (.error e) = emptyDataFrame := by
  cases tf <;> rfl

/-- C2 counterexample: for the daily timeframe, a raised network error
produces the very same value as a valid "no data for range" response — the
caller cannot distinguish an empty-but-valid result from a failure, and no
ProviderError is raised. -/
theorem fetch_historical_failure_indistinguishable :
    fetch_historical TimeFrame.DAY_1 (.error netErrorMessage) =
      fetch_historical TimeFrame.DAY_1 (.ok emptyDataFrame) := rfl

end YFinanceProvider
